import Mathlib

/-!
Verification development for the `ftfneo` NASA NEO collector
(`neo.py` and `app.py`): a shallow embedding of its data model and
operations, with theorems settling the specification's claims.

Modelling conventions, used throughout:

* Calendar dates are modelled by their proleptic-Gregorian ordinal day
  numbers (`Nat`).  `datetime.datetime.fromisoformat` / `strftime` form an
  order-preserving bijection between well-formed ISO date strings and day
  ordinals, `timedelta(days = 8)` is `+ 8` on ordinals, and `<=`/`>` on
  `datetime` values is `<=`/`>` on ordinals, so the loop arithmetic of
  `collect_and_store` and the date filter of `get_values_list` are faithfully
  represented on `Nat`.
* Timestamps (instants) are modelled as exact rational/integer numbers of
  seconds since the epoch.  Python's true division `/ 1000` is modelled as
  exact division in `ℚ` (at the inputs used in this development the float
  arithmetic is exact, so nothing is lost at the relevant granularity).
* The MySQL database is modelled as an explicit state `NeoDb`: a
  reachability flag (whether `mysql.connector.connect` succeeds), the
  singleton `neo_load` row (`None` when the table has no row, so that
  `fetchone()` returns `None`), and the `neo` table (`None` when dropped /
  never created).  In the source every helper opens its connection *before*
  its `try:` block, so an unreachable store raises to the helper's caller;
  errors raised inside the `try:` blocks are caught and logged.  Helpers
  therefore return `Except PyError NeoDb`.
* Python exceptions that escape a function are modelled with `Except` /
  an explicit `raised` outcome; `PyError` names the exception classes that
  can actually arise in the modelled paths.
* Python dictionaries from the feed payload are modelled as records (all
  the keys read by `get_values_list` present); the one genuinely fallible
  access, `neo["close_approach_data"][0]`, is modelled on a `List`, whose
  emptiness raises `IndexError` exactly as in Python.
* String values are Lean `String`s; Python `s[-4:]` is `pyLast4`.
* The HTTP layer (`requests.get` inside `make_request`) is modelled by an
  oracle `Nat → FetchOutcome` giving the outcome of the n-th request of a
  run: `fail` for a non-200/transport failure and `success payload` for a
  200 response with the decoded JSON body.  `logging` calls and
  `time.sleep` are recorded as trace events.
* The `while` loop of `collect_and_store` is given fuel; `Term.fuelOut`
  means the loop is still running after `fuel` iterations, so
  "`Term.fuelOut` for every fuel" is non-termination.
-/

namespace Neo

/-- Exception classes that can escape the modelled code paths. -/
inductive PyError
  | connectError
  | typeError
  | attributeError
  | indexError
  deriving DecidableEq

/-- One element of `neo["close_approach_data"]` (the keys read by
`get_values_list`).  `epoch_date_close_approach` is in milliseconds. -/
structure CloseApproach where
  epoch_date_close_approach : Int
  relative_velocity_mph : ℚ
  miss_distance_miles : ℚ
  orbiting_body : String
  deriving DecidableEq

/-- One per-object entry of the feed payload (the keys read by
`get_values_list`).  `close_approach_data` is a list, possibly empty. -/
structure NeoEntry where
  neo_reference_id : String
  name : String
  nasa_jpl_url : String
  absolute_magnitude_h : ℚ
  is_potentially_hazardous_asteroid : Bool
  is_sentry_object : Bool
  estimated_diameter_miles_min : ℚ
  estimated_diameter_miles_max : ℚ
  close_approach_data : List CloseApproach
  deriving DecidableEq

/-- A row of the destination `neo` table, in the order of the `values`
tuple built by `get_values_list`.  `close_approach_datetime` is an instant
in (rational) seconds since the epoch. -/
structure NeoRow where
  neo_reference_id : String
  name : String
  nasa_jpl_url : String
  absolute_magnitude_h : ℚ
  is_potentially_hazardous_asteroid : Bool
  is_sentry_object : Bool
  estimated_diameter_min : ℚ
  estimated_diameter_max : ℚ
  close_approach_datetime : ℚ
  relative_velocity : ℚ
  miss_distance : ℚ
  orbiting_body : String
  deriving DecidableEq

/-- The singleton row of the `neo_load` table (`WHERE id = 1`): `running`
is the stored MySQL boolean (tinyint, compared against `1` by the code),
`start_dt` / `end_dt` are nullable DATETIME columns, in whole seconds. -/
structure RunRow where
  running : Int
  start_dt : Option Int
  end_dt : Option Int
  deriving DecidableEq

/-- The database state: `reachable` is whether `mysql.connector.connect`
succeeds, `neo_load` is the row returned by
`SELECT running, start_dt, end_dt FROM neo_load` (`none` = no row, i.e.
`fetchone()` gives `None`), `neo` is the destination table contents
(`none` = table absent/dropped). -/
structure NeoDb where
  reachable : Bool
  neo_load : Option RunRow
  neo : Option (List NeoRow)
  deriving DecidableEq

/-- The compiled form of the regular expression `\d{4}-\d{2}-\d{2}` on a
character list: four digits, a dash, two digits, a dash, two digits.
(`\d` is modelled as an ASCII digit; the claims only concern ASCII
strings.)  Matches exactly the 10-character lists of that shape. -/
def isShape (l : List Char) : Bool :=
  match l with
  | [a, b, c, d, e, f, g, h, i, j] =>
    a.isDigit && b.isDigit && c.isDigit && d.isDigit && e == '-' &&
    f.isDigit && g.isDigit && h == '-' && i.isDigit && j.isDigit
  | _ => false

/-- `check_date_format` (neo.py:40-41): `bool(re.match("\d{4}-\d{2}-\d{2}",
date))`.  `re.match` anchors at the start of the string only: it succeeds
iff some prefix of `date` matches the pattern.  The pattern has fixed
length 10, so that is: the first 10 characters exist and have the shape.
(Every caller in the source leaves `regex_format` at its default.) -/
def check_date_format (date : String) : Bool :=
  isShape (date.data.take 10)

/-- Result dictionary of `check_args` (the `msg` string is log-only and
omitted; `pass` and `end_date` are the keys `main` reads). -/
structure CheckArgsRes where
  pass : Bool
  end_date : Option String
  deriving DecidableEq

/-- `check_args` (neo.py:24-36).  `argparse` yields `None` when
`-end_date` was not supplied; that and a format-check failure give
`pass = False`. -/
def check_args (end_date : Option String) : CheckArgsRes :=
  match end_date with
  | none => ⟨false, none⟩
  | some d => ⟨check_date_format d, some d⟩

/-- `dt.strftime("%Y-%m-%d %H:%M:%S")` applied to a nullable value:
`None.strftime(...)` raises `AttributeError`.  The rendered string is
abstracted to the instant it denotes. -/
def strftime (t : Option Int) : Except PyError Int :=
  match t with
  | none => .error .attributeError
  | some v => .ok v

/-- Result dictionary of `check_running`. -/
structure CheckRunningRes where
  running : Bool
  start_dt : Int
  end_dt : Int
  deriving DecidableEq

/-- `check_running` (neo.py:48-75; app.py:51-87 is the same logic modulo
reading the opaque config).  `connect` is called before the `try:` block,
so an unreachable store raises to the caller.  Inside the `try:`, a missing
row makes `fetchone()` return `None` and `result[0]` raise `TypeError`,
which is caught and logged, leaving the defaults `running_bool = True`,
`start_dt = None`, `end_dt = None`; the `return` line then calls
`.strftime` on the (possibly `None`) datetimes, raising `AttributeError`
when either is `None`. -/
def check_running (db : NeoDb) : Except PyError CheckRunningRes :=
  if db.reachable then
    let fetched : Bool × Option Int × Option Int :=
      match db.neo_load with
      | some r => (r.running == 1, r.start_dt, r.end_dt)
      | none => (true, none, none)
    do
      let s ← strftime fetched.2.1
      let e ← strftime fetched.2.2
      pure ⟨fetched.1, s, e⟩
  else
    .error .connectError

/-- `set_running` (neo.py:78-101).  `connect` precedes the `try:`, so an
unreachable store raises.  Otherwise one `UPDATE ... WHERE id = 1` runs:
with `running_bool` it sets `running = TRUE, start_dt = now`; without it,
`running = FALSE, end_dt = now` (`now_ts` is the caller's clock reading,
already truncated to whole seconds by `int(...)` in the source).  If the
`neo_load` table has no row the update affects nothing. -/
def set_running (db : NeoDb) (running_bool : Bool) (now_ts : Int) :
    Except PyError NeoDb :=
  if db.reachable then
    if running_bool then
      .ok { db with neo_load :=
        db.neo_load.map fun r => { r with running := 1, start_dt := some now_ts } }
    else
      .ok { db with neo_load :=
        db.neo_load.map fun r => { r with running := 0, end_dt := some now_ts } }
  else
    .error .connectError

/-- `empty_table` (neo.py:105-141): drop the `neo` table if it exists and
recreate it empty.  `connect` precedes the `try:`, so an unreachable store
raises; the DROP/CREATE themselves succeed on a reachable store. -/
def empty_table (db : NeoDb) : Except PyError NeoDb :=
  if db.reachable then
    .ok { db with neo := some [] }
  else
    .error .connectError

/-- `insert_into_db` (neo.py:189-213): `connect` precedes the `try:`, so
an unreachable store raises; the `executemany` INSERT appends the rows.
If the `neo` table is absent the INSERT raises inside the `try:`, which is
caught and logged, leaving the state unchanged. -/
def insert_into_db (values_list : List NeoRow) (db : NeoDb) :
    Except PyError NeoDb :=
  if db.reachable then
    .ok { db with neo := db.neo.map (· ++ values_list) }
  else
    .error .connectError

/-- Python's slice `s[-4:]`: the characters from position
`max(len(s) - 4, 0)` on, i.e. the last four characters, or all of `s` when
it is shorter than four characters. -/
def pyLast4 (s : String) : String :=
  ⟨s.data.drop (s.data.length - 4)⟩

/-- The per-entry body of the `for neo in dates[date]` loop of
`get_values_list` (neo.py:165-185), building one `values` tuple.
`neo["close_approach_data"][0]` raises `IndexError` when the list is
empty; every other read is a present record field.  The epoch is divided
by `1000` with Python's true division (`/`), keeping the fractional part,
and `datetime.utcfromtimestamp` keeps it as sub-second precision. -/
def mapNeo (neo : NeoEntry) : Except PyError NeoRow :=
  match neo.close_approach_data with
  | [] => .error .indexError
  | ca :: _ =>
    .ok { neo_reference_id := pyLast4 neo.neo_reference_id
          name := neo.name
          nasa_jpl_url := neo.nasa_jpl_url
          absolute_magnitude_h := neo.absolute_magnitude_h
          is_potentially_hazardous_asteroid := neo.is_potentially_hazardous_asteroid
          is_sentry_object := neo.is_sentry_object
          estimated_diameter_min := neo.estimated_diameter_miles_min
          estimated_diameter_max := neo.estimated_diameter_miles_max
          close_approach_datetime := (ca.epoch_date_close_approach : ℚ) / 1000
          relative_velocity := ca.relative_velocity_mph
          miss_distance := ca.miss_distance_miles
          orbiting_body := ca.orbiting_body }

/-- The inner `for neo in dates[date]` loop: map the entries of one date
key in order; a raised exception propagates. -/
def mapEntries : List NeoEntry → Except PyError (List NeoRow)
  | [] => .ok []
  | n :: rest => do
    let v ← mapNeo n
    let vs ← mapEntries rest
    pure (v :: vs)

/-- `get_values_list` (neo.py:158-186).  `data["near_earth_objects"]` is a
dict from date keys to entry lists, modelled as an association list in
iteration order (`Nat` date ordinals, see the header).  A date key
strictly later than `end_date` is skipped (`continue`); otherwise its
entries are appended to the accumulating list.  Exceptions raised by an
entry propagate out of the function. -/
def get_values_list (data : List (Nat × List NeoEntry)) (end_date : Nat) :
    Except PyError (List NeoRow) :=
  match data with
  | [] => .ok []
  | (d, neos) :: rest =>
    if end_date < d then
      get_values_list rest end_date
    else do
      let vs ← mapEntries neos
      let more ← get_values_list rest end_date
      pure (vs ++ more)

/-- Outcome of `make_request` (neo.py:147-153) for one request:
`fail` when the status is not 200 (`good = False`), `success payload`
when it is 200 with the decoded body. -/
inductive FetchOutcome
  | fail
  | success (payload : List (Nat × List NeoEntry))
  deriving DecidableEq

/-- Observable steps of a run, in execution order. -/
inductive Event
  | emptyTable
  | setRunning (b : Bool)
  | request (window : Nat)
  | insertRows (n : Nat)
  | sleep
  | logError
  | logInfo
  | checkRunning
  deriving DecidableEq

/-- How an invocation of `collect_and_store` ended: normal return, an
escaped Python exception, or still running after the given fuel. -/
inductive Term
  | completed
  | raised (e : PyError)
  | fuelOut
  deriving DecidableEq

/-- Result of a (possibly unfinished) `collect_and_store` run: the events
it performed, the database state it reached, and how it ended. -/
structure RunRes where
  events : List Event
  db : NeoDb
  term : Term
  deriving DecidableEq

/-- The `while` loop of `collect_and_store` (neo.py:226-245), with fuel.
Each iteration: log and issue the request for `current_date` (the
`.request` event); on a 200 response run `get_values_list` (whose
exceptions escape the whole function), insert the rows, advance
`current_date` by 8 days and sleep 5 seconds; on a failed request only log
the error — `current_date` is left unchanged.  `req_counter` increments on
every iteration.  The loop exits when `current_date` exceeds `end_date`. -/
def collectLoop (oracle : Nat → FetchOutcome) (end_date : Nat) :
    Nat → Nat → Nat → NeoDb → RunRes
  | 0, current_date, _, db =>
    if current_date ≤ end_date then ⟨[], db, .fuelOut⟩
    else ⟨[], db, .completed⟩
  | fuel + 1, current_date, req_counter, db =>
    if current_date ≤ end_date then
      match oracle req_counter with
      | .success payload =>
        match get_values_list payload end_date with
        | .error e => ⟨[.request current_date], db, .raised e⟩
        | .ok values_list =>
          match insert_into_db values_list db with
          | .error e => ⟨[.request current_date], db, .raised e⟩
          | .ok db1 =>
            let r := collectLoop oracle end_date fuel (current_date + 8)
              (req_counter + 1) db1
            ⟨.request current_date :: .insertRows values_list.length ::
              .sleep :: r.events, r.db, r.term⟩
      | .fail =>
        let r := collectLoop oracle end_date fuel current_date
          (req_counter + 1) db
        ⟨.request current_date :: .logError :: r.events, r.db, r.term⟩
    else
      ⟨[], db, .completed⟩

/-- `collect_and_store` (neo.py:218-247): empty the table, set running,
run the window loop from `start_date` with `req_counter = 1`, and, when
the loop finishes normally, set not-running.  There is no `try/finally`:
any exception raised inside (from an unreachable store or from
`get_values_list`) escapes immediately, skipping everything after it.
`t_begin` / `t_end` are the clock readings at the two `set_running`
calls. -/
def collect_and_store (oracle : Nat → FetchOutcome) (fuel : Nat)
    (start_date end_date : Nat) (t_begin t_end : Int) (db : NeoDb) : RunRes :=
  match empty_table db with
  | .error e => ⟨[], db, .raised e⟩
  | .ok db1 =>
    match set_running db1 true t_begin with
    | .error e => ⟨[.emptyTable], db1, .raised e⟩
    | .ok db2 =>
      let r := collectLoop oracle end_date fuel start_date 1 db2
      match r.term with
      | .completed =>
        match set_running r.db false t_end with
        | .error e =>
          ⟨.emptyTable :: .setRunning true :: r.events, r.db, .raised e⟩
        | .ok db3 =>
          ⟨.emptyTable :: .setRunning true :: (r.events ++ [.setRunning false]),
            db3, .completed⟩
      | t => ⟨.emptyTable :: .setRunning true :: r.events, r.db, t⟩

/-- How an invocation of `main` ended.  `sys.exit()` raises
`SystemExit(None)`, which the interpreter turns into exit status `0`;
normal return from `main` also exits with status `0`.  Any other escaped
exception is `raised`. -/
inductive MainTerm
  | exited (code : Nat)
  | raised (e : PyError)
  | fuelOut
  deriving DecidableEq

/-- Result of `main`: trace, final store state, and how it ended. -/
structure MainRes where
  events : List Event
  db : NeoDb
  term : MainTerm
  deriving DecidableEq

/-- `main` (neo.py:250-290).  `ord` is the date-ordinal reading of ISO
date strings (see the header); `end_date_arg` is the `-end_date` value.
On a failed argument check: log the error and `sys.exit()` — exit status
`0`, nothing else done.  Otherwise: log, read the opaque config, call
`check_running` (the `.checkRunning` event; its exceptions escape), stop
with `sys.exit()` if a run is active, else run `collect_and_store` from
the fixed start date `"1982-12-10"` and log completion. -/
def main (ordDate : String → Nat) (oracle : Nat → FetchOutcome) (fuel : Nat)
    (t_begin t_end : Int) (end_date_arg : Option String) (db : NeoDb) :
    MainRes :=
  let ca := check_args end_date_arg
  if ca.pass then
    match check_running db with
    | .error e => ⟨[.logInfo, .checkRunning], db, .raised e⟩
    | .ok res =>
      if res.running then
        ⟨[.logInfo, .checkRunning, .logError], db, .exited 0⟩
      else
        let r := collect_and_store oracle fuel (ordDate "1982-12-10")
          (ordDate (ca.end_date.getD "")) t_begin t_end db
        match r.term with
        | .completed =>
          ⟨[.logInfo, .checkRunning] ++ r.events ++ [.logInfo], r.db, .exited 0⟩
        | .raised e => ⟨[.logInfo, .checkRunning] ++ r.events, r.db, .raised e⟩
        | .fuelOut => ⟨[.logInfo, .checkRunning] ++ r.events, r.db, .fuelOut⟩
  else
    ⟨[.logError], db, .exited 0⟩

/-! ## Specification-side definitions

These follow the wording of the spec (not the source); they exist to be
compared with the source-derived definitions above. -/

/-- From the spec's words: the string matches *exactly* the shape
`DDDD-DD-DD` — 4 digits, dash, 2 digits, dash, 2 digits, and nothing
else. -/
def exactDateShape (s : String) : Bool :=
  isShape s.data

/-- The window start dates of the `.request` events of a trace, in
order. -/
def requestsOf (events : List Event) : List Nat :=
  events.filterMap fun ev =>
    match ev with
    | .request w => some w
    | _ => none

/-- The window start dates a run over `[current, end_date]` is meant to
attempt: `current, current + 8, ...` while `≤ end_date`. -/
def windowStarts (end_date : Nat) (current : Nat) : List Nat :=
  if _h : current ≤ end_date then
    current :: windowStarts end_date (current + 8)
  else
    []
termination_by end_date + 1 - current
decreasing_by omega

/-- A run configuration never returns: for every fuel the window loop is
still running.  (The fuel counts executed loop iterations, so this is
non-termination of the `while` loop.) -/
def runForever (oracle : Nat → FetchOutcome) (start_date end_date : Nat)
    (db : NeoDb) : Prop :=
  ∀ (fuel : Nat) (t_begin t_end : Int),
    (collect_and_store oracle fuel start_date end_date t_begin t_end db).term =
      Term.fuelOut

/-! ## Concrete fixtures -/

/-- A reachable store whose singleton `neo_load` row says not running,
with no `neo` table yet. -/
def db0 : NeoDb := ⟨true, some ⟨0, none, none⟩, none⟩

/-- A reachable store whose `neo_load` table has no row. -/
def dbNoRow : NeoDb := ⟨true, none, some []⟩

/-- A close-approach record with the given epoch (milliseconds). -/
def caAt (ms : Int) : CloseApproach := ⟨ms, 0, 0, "Earth"⟩

/-- An entry with the given reference id and close-approach list. -/
def entryWith (id : String) (cas : List CloseApproach) : NeoEntry :=
  ⟨id, "n", "u", 0, false, false, 0, 0, cas⟩

/-- Entry whose close-approach epoch is 1500 ms (= 1.5 s). -/
def e1500 : NeoEntry := entryWith "2021AB1234" [caAt 1500]

/-- Entry whose upstream reference id has only 3 characters. -/
def e123 : NeoEntry := entryWith "123" [caAt 0]

/-- Entry with an empty `close_approach_data` list: reading `[0]` raises
`IndexError` inside `get_values_list`. -/
def eNoCA : NeoEntry := entryWith "2021AB1234" []

/-- Every request fails (non-200 response). -/
def failOracle : Nat → FetchOutcome := fun _ => .fail

/-- Every request succeeds with an empty payload. -/
def emptyOracle : Nat → FetchOutcome := fun _ => .success []

/-- The first request (counter 1) fails; later ones succeed with an empty
payload. -/
def failThenOk : Nat → FetchOutcome := fun n =>
  if n = 1 then .fail else .success []

/-- Every request succeeds, with a payload whose single entry has an
empty close-approach list. -/
def badOracle : Nat → FetchOutcome := fun _ => .success [(0, [eNoCA])]

/-- The store state after the table reset and the begin update of a run
over a reachable store `db` with clock reading `t1`: the result of
`set_running (empty_table db) True t1`.  (Lemma plumbing.) -/
def beginDb (db : NeoDb) (t1 : Int) : NeoDb :=
  { db with
    neo := some [],
    neo_load := db.neo_load.map fun row =>
      { row with running := 1, start_dt := some t1 } }

/-- Result of `set_running db0 true 5`. -/
def dbA : NeoDb := ⟨true, some ⟨1, some 5, none⟩, none⟩

/-- Result of `set_running dbA false 9`. -/
def dbB : NeoDb := ⟨true, some ⟨0, some 5, some 9⟩, none⟩

/-! ## Helper lemmas -/

/-- A character list of the date shape has exactly 10 characters. -/
lemma isShape_length {l : List Char} (h : isShape l = true) : l.length = 10 := by
  unfold isShape at h
  split at h
  · simp_all
  · simp at h

/-- The window loop itself never performs a `setRunning` event (those
happen only around it, in `collect_and_store`). -/
lemma collectLoop_no_setRunning (oracle : Nat → FetchOutcome)
    (end_date : Nat) (b : Bool) :
    ∀ (fuel current req : Nat) (db : NeoDb),
      Event.setRunning b ∉
        (collectLoop oracle end_date fuel current req db).events := by
  intro fuel
  induction fuel with
  | zero =>
    intro current req db
    unfold collectLoop
    split <;> simp
  | succ n ih =>
    intro current req db
    unfold collectLoop
    split
    · rcases hor : oracle req with _ | payload
      · simp only [hor]
        intro hmem
        simp only [List.mem_cons] at hmem
        rcases hmem with h | h | h
        · exact absurd h (by simp)
        · exact absurd h (by simp)
        · exact ih _ _ db h
      · rcases hget : get_values_list payload end_date with e | vs
        · simp [hor, hget]
        · rcases hins : insert_into_db vs db with e | db1
          · simp [hor, hget, hins]
          · simp only [hor, hget, hins]
            intro hmem
            simp only [List.mem_cons] at hmem
            rcases hmem with h | h | h | h
            · exact absurd h (by simp)
            · exact absurd h (by simp)
            · exact absurd h (by simp)
            · exact ih _ _ db1 h
    · simp

/-- A loop iteration that runs (fuel left, window in range) begins with
the request for the current window, whatever the outcome. -/
lemma collectLoop_events_head (oracle : Nat → FetchOutcome)
    (end_date fuel current req : Nat) (db : NeoDb)
    (h : current ≤ end_date) :
    ∃ tail, (collectLoop oracle end_date (fuel + 1) current req db).events =
      Event.request current :: tail := by
  unfold collectLoop
  rw [if_pos h]
  rcases hor : oracle req with _ | payload
  · simp only [hor]
    exact ⟨_, rfl⟩
  · rcases hget : get_values_list payload end_date with e | vs
    · simp only [hor, hget]
      exact ⟨_, rfl⟩
    · rcases hins : insert_into_db vs db with e | db1
      · simp only [hor, hget, hins]
        exact ⟨_, rfl⟩
      · simp only [hor, hget, hins]
        exact ⟨_, rfl⟩

/-- When every request fails, the loop never leaves its current window:
whatever the fuel, it is still running. -/
lemma collectLoop_allFail (end_date : Nat) :
    ∀ (fuel current req : Nat) (db : NeoDb), current ≤ end_date →
      (collectLoop failOracle end_date fuel current req db).term =
        Term.fuelOut := by
  intro fuel
  induction fuel with
  | zero =>
    intro c r db hc
    unfold collectLoop
    rw [if_pos hc]
  | succ n ih =>
    intro c r db hc
    unfold collectLoop
    rw [if_pos hc]
    simp only [failOracle]
    exact ih c (r + 1) db hc

/-- When every request succeeds with a cleanly mapping payload and the
store is reachable, the loop completes as soon as the window start
exceeds the end date, issuing exactly one request per expected window
start; enough fuel is `end_date < current + 8 * fuel`. -/
lemma collectLoop_allGood (oracle : Nat → FetchOutcome) (end_date : Nat)
    (hok : ∀ n, ∃ p vs, oracle n = .success p ∧
      get_values_list p end_date = .ok vs) :
    ∀ (fuel current req : Nat) (db : NeoDb), db.reachable = true →
      end_date < current + 8 * fuel →
      (collectLoop oracle end_date fuel current req db).term =
        Term.completed ∧
      requestsOf (collectLoop oracle end_date fuel current req db).events =
        windowStarts end_date current ∧
      (collectLoop oracle end_date fuel current req db).db.reachable =
        true := by
  intro fuel
  induction fuel with
  | zero =>
    intro c r db hdb hlt
    have hc : ¬ c ≤ end_date := by omega
    unfold collectLoop
    rw [if_neg hc, windowStarts, dif_neg hc]
    exact ⟨rfl, rfl, hdb⟩
  | succ n ih =>
    intro c r db hdb hlt
    by_cases hc : c ≤ end_date
    · obtain ⟨p, vs, hor, hget⟩ := hok r
      have hins : insert_into_db vs db =
          .ok { db with neo := db.neo.map (· ++ vs) } := by
        simp [insert_into_db, hdb]
      unfold collectLoop
      rw [if_pos hc]
      simp only [hor, hget, hins]
      have ih' := ih (c + 8) (r + 1) { db with neo := db.neo.map (· ++ vs) }
        hdb (by omega)
      refine ⟨ih'.1, ?_, ih'.2.2⟩
      rw [windowStarts, dif_pos hc]
      simp only [requestsOf, List.filterMap_cons]
      simp only [requestsOf] at ih'
      rw [ih'.2.1]
    · unfold collectLoop
      rw [if_neg hc, windowStarts, dif_neg hc]
      exact ⟨rfl, rfl, hdb⟩

/-- Unfolding `collect_and_store` over a reachable store: the table reset
and the begin both succeed, and the rest is determined by the loop. -/
lemma collect_and_store_unfold (oracle : Nat → FetchOutcome)
    (fuel start_date end_date : Nat) (t1 t2 : Int) (db : NeoDb)
    (hr : db.reachable = true) :
    collect_and_store oracle fuel start_date end_date t1 t2 db =
      (let r := collectLoop oracle end_date fuel start_date 1 (beginDb db t1)
      match r.term with
      | .completed =>
        match set_running r.db false t2 with
        | .error e =>
          ⟨.emptyTable :: .setRunning true :: r.events, r.db, .raised e⟩
        | .ok db3 =>
          ⟨.emptyTable :: .setRunning true ::
            (r.events ++ [.setRunning false]), db3, .completed⟩
      | t => ⟨.emptyTable :: .setRunning true :: r.events, r.db, t⟩) := by
  unfold collect_and_store
  have he : empty_table db = .ok { db with neo := some [] } := by
    simp [empty_table, hr]
  have hs : set_running { db with neo := some [] } true t1 =
      .ok (beginDb db t1) := by
    simp [set_running, beginDb, hr]
  simp only [he, hs]

/-! ## Claim C5: `check_date_format` -/

/-- Claim C5 counterexample: the claim says `check_date_format d` holds
iff `d` is *exactly* of the shape `DDDD-DD-DD` and nothing else, but
`re.match` only anchors at the start of the string: the 11-character
string "2020-03-155" passes the check while not being exactly of the
shape. -/
theorem check_date_format_not_exact :
    check_date_format "2020-03-155" = true ∧
      exactDateShape "2020-03-155" = false := by
  decide

/-- Claim C5, corrected: for every string `d`, `check_date_format d`
holds iff some decomposition `d = p ++ t` has a first part `p` exactly of
the shape `DDDD-DD-DD` — i.e. the check is a prefix match, ignoring
whatever follows the first 10 characters; it is still independent of
calendar validity ("9999-99-99" passes). -/
theorem check_date_format_iff_shape_prefixed :
    (∀ s : String, check_date_format s = true ↔
      ∃ p t : List Char, s.data = p ++ t ∧ isShape p = true) ∧
    check_date_format "9999-99-99" = true := by
  constructor
  · intro s
    constructor
    · intro h
      exact ⟨s.data.take 10, s.data.drop 10,
        (List.take_append_drop 10 s.data).symm, h⟩
    · rintro ⟨p, t, hs, hp⟩
      have hlen : p.length = 10 := isShape_length hp
      unfold check_date_format
      rw [hs, List.take_left' hlen]
      exact hp
  · decide

/-- Witness for the corrected C5 theorem at the concrete input
"2020-03-15". -/
theorem check_date_format_iff_shape_prefixed_witness :
    check_date_format "2020-03-15" = true :=
  (check_date_format_iff_shape_prefixed.1 "2020-03-15").mpr
    ⟨"2020-03-15".data, [], by decide, by decide⟩

/-! ## Claim C7: close-approach timestamp -/

/-- Claim C7 counterexample: the claim says the mapped close-approach
instant is the epoch milliseconds divided by 1000 *truncated to whole
seconds*; but `/` is Python true division, so an entry with epoch 1500 ms
maps to 1.5 s — a value with a fractional-second component, not the
truncated 1500 // 1000 = 1 s. -/
theorem close_approach_not_truncated :
    (mapNeo e1500).map (fun r => r.close_approach_datetime) =
      .ok (3 / 2 : ℚ) ∧
    (¬ ∃ n : ℤ, (3 / 2 : ℚ) = (n : ℚ)) ∧
    (3 / 2 : ℚ) ≠ ((1500 / 1000 : Int) : ℚ) := by
  refine ⟨?_, ?_, ?_⟩
  · show (Except.ok (((1500 : Int) : ℚ) / 1000) : Except PyError ℚ) =
      .ok (3 / 2 : ℚ)
    exact congrArg Except.ok (by norm_num)
  · rintro ⟨n, hn⟩
    have h3 : (3 : ℚ) = (n : ℚ) * 2 := by
      field_simp at hn
      linarith
    have h4 : (3 : ℤ) = n * 2 := by exact_mod_cast h3
    omega
  · have h1 : (1500 / 1000 : Int) = 1 := by decide
    rw [h1]
    norm_num

/-- Claim C7, corrected: for every feed entry mapped by the record
mapper, the close-approach timestamp equals the entry's
`epoch_date_close_approach` (milliseconds) divided by 1000 with *exact
(true) division*, keeping any fractional-second component; no truncation
to whole seconds is applied. -/
theorem close_approach_true_division :
    ∀ (neo : NeoEntry) (ca : CloseApproach) (rest : List CloseApproach)
      (row : NeoRow),
      neo.close_approach_data = ca :: rest →
      mapNeo neo = .ok row →
      row.close_approach_datetime =
        (ca.epoch_date_close_approach : ℚ) / 1000 := by
  intro neo ca rest row hca h
  unfold mapNeo at h
  rw [hca] at h
  cases h
  rfl

/-- Witness for the corrected C7 theorem: the 1500 ms entry maps to
exactly 1.5 seconds. -/
theorem close_approach_true_division_witness :
    ∃ row, mapNeo e1500 = .ok row ∧
      row.close_approach_datetime = (3 / 2 : ℚ) := by
  obtain ⟨row, hrow⟩ : ∃ row, mapNeo e1500 = .ok row := ⟨_, rfl⟩
  refine ⟨row, hrow, ?_⟩
  rw [close_approach_true_division e1500 (caAt 1500) [] row rfl hrow]
  norm_num [caAt]

/-! ## Claim C8: reference id truncation -/

/-- Claim C8 counterexample: the claim says the mapped reference id has
exactly 4 characters whatever the length of the upstream id; but Python's
`[-4:]` on the 3-character id "123" returns "123" itself, which has 3
characters. -/
theorem ref_id_short_not_four :
    (mapNeo e123).map (fun r => r.neo_reference_id) = .ok "123" ∧
    ("123" : String).data.length ≠ 4 :=
  ⟨rfl, by decide⟩

/-- Claim C8, corrected: the mapped reference id is the `[-4:]` slice of
the upstream identifier — its last 4 characters (exactly 4, no padding)
whenever the upstream id has at least 4 characters; a shorter id passes
through whole, with fewer than 4 characters. -/
theorem ref_id_last_four :
    ∀ (neo : NeoEntry) (row : NeoRow),
      mapNeo neo = .ok row →
      row.neo_reference_id = pyLast4 neo.neo_reference_id ∧
      (4 ≤ neo.neo_reference_id.data.length →
        row.neo_reference_id.data.length = 4) := by
  intro neo row h
  unfold mapNeo at h
  split at h
  · exact absurd h (by simp)
  · cases h
    refine ⟨rfl, fun hlen => ?_⟩
    show (pyLast4 neo.neo_reference_id).data.length = 4
    unfold pyLast4
    simp only [List.length_drop]
    omega

/-- Witness for the corrected C8 theorem: the 10-character id
"2021AB1234" maps to a 4-character reference id. -/
theorem ref_id_last_four_witness :
    ∃ row, mapNeo e1500 = .ok row ∧
      row.neo_reference_id.data.length = 4 := by
  obtain ⟨row, hrow⟩ : ∃ row, mapNeo e1500 = .ok row := ⟨_, rfl⟩
  exact ⟨row, hrow, (ref_id_last_four e1500 row hrow).2 (by decide)⟩

/-! ## Claim C10: `set_running` frame -/

/-- Claim C10, confirmed: `set_running(db, True)` updates only the
`running` and `start_dt` fields of the singleton row (leaving `end_dt`
and the `neo` table untouched), and `set_running(db, False)` updates only
`running` and `end_dt` (leaving `start_dt` untouched) — so after a
begin/end pair the row still records the run's original start time. -/
theorem set_running_updates_only_its_fields :
    ∀ (db : NeoDb) (t1 t2 : Int) (db1 db2 : NeoDb),
      set_running db true t1 = .ok db1 →
      set_running db1 false t2 = .ok db2 →
      db1.neo_load.map RunRow.end_dt = db.neo_load.map RunRow.end_dt ∧
      db1.neo_load.map RunRow.start_dt = db.neo_load.map (fun _ => some t1) ∧
      db1.neo = db.neo ∧
      db2.neo_load.map RunRow.start_dt = db1.neo_load.map RunRow.start_dt ∧
      db2.neo_load.map RunRow.end_dt = db1.neo_load.map (fun _ => some t2) ∧
      db2.neo = db1.neo ∧
      db2.neo_load.map RunRow.start_dt = db.neo_load.map (fun _ => some t1) := by
  intro db t1 t2 db1 db2 h1 h2
  unfold set_running at h1 h2
  split at h1
  case isTrue hr =>
    rw [if_pos rfl] at h1
    injection h1 with h1
    subst h1
    split at h2
    case isTrue hr2 =>
      rw [if_neg (by simp)] at h2
      injection h2 with h2
      subst h2
      cases hl : db.neo_load with
      | none => simp [hl]
      | some r =>
        obtain ⟨runb, sdt, edt⟩ := r
        simp [hl]
    case isFalse hr2 => exact absurd hr hr2
  case isFalse hr => exact absurd h1 (by simp)

/-- Witness for the C10 theorem at the concrete store `db0` with clock
readings 5 and 9. -/
theorem set_running_updates_only_its_fields_witness :
    set_running db0 true 5 = .ok dbA ∧ set_running dbA false 9 = .ok dbB ∧
      dbB.neo_load.map RunRow.start_dt =
        db0.neo_load.map (fun _ => some 5) :=
  ⟨rfl, rfl,
    (set_running_updates_only_its_fields db0 5 9 dbA dbB rfl rfl).2.2.2.2.2.2⟩

/-! ## Claim C6: `check_running` on a failed read -/

/-- Claim C6, confirmed: whenever the read of the singleton `neo_load`
row fails — the store is unreachable or the row is absent — the lock
query `check_running` raises to its caller (the spec's `LockUnavailable`
report is realised as the escaping exception: the connection error when
the store is unreachable, or the `AttributeError` from
`None.strftime(...)` when the row was absent and the caught read failure
left the `None` defaults in place).  It never returns a default
running/not-running answer. -/
theorem check_running_read_failure :
    ∀ db : NeoDb, db.reachable = false ∨ db.neo_load = none →
      ∃ e, check_running db = .error e := by
  intro db h
  rcases h with h | h
  · refine ⟨.connectError, ?_⟩
    unfold check_running
    simp [h]
  · by_cases hr : db.reachable = true
    · refine ⟨.attributeError, ?_⟩
      unfold check_running
      rw [if_pos hr, h]
      rfl
    · refine ⟨.connectError, ?_⟩
      unfold check_running
      rw [if_neg hr]

/-- Witness for the C6 theorem: a reachable store whose `neo_load` table
has no row. -/
theorem check_running_read_failure_witness :
    ∃ e, check_running dbNoRow = .error e :=
  check_running_read_failure dbNoRow (Or.inr rfl)

/-! ## Claim C4: order of lock begin and table reset -/

/-- Claim C4 counterexample: the claim says `set_running(db, True)` is
performed before the table reset; but `collect_and_store` calls
`empty_table` first (line 221) and `set_running(db, True)` second
(line 222).  In this concrete run (empty window range) the trace is
reset, then begin, then end — the table is reset while the persisted row
still says `running = 0`. -/
theorem begin_not_before_reset :
    (collect_and_store failOracle 0 1 0 7 9 db0).events =
      [Event.emptyTable, Event.setRunning true, Event.setRunning false] ∧
    db0.neo_load.map RunRow.running = some 0 := by
  decide

/-- Claim C4, corrected: in every run against a reachable store the first
two steps are the destructive table reset and *then* the lock begin
(`running=true`); the reset is performed while the persisted lock state
still holds its previous (possibly not-running) value, not the other way
around. -/
theorem table_reset_precedes_begin :
    ∀ (oracle : Nat → FetchOutcome) (fuel start_date end_date : Nat)
      (t1 t2 : Int) (db : NeoDb), db.reachable = true →
      (collect_and_store oracle fuel start_date end_date t1 t2 db).events.take 2 =
        [Event.emptyTable, Event.setRunning true] := by
  intro oracle fuel s e t1 t2 db hr
  rw [collect_and_store_unfold oracle fuel s e t1 t2 db hr]
  dsimp only
  rcases hterm : (collectLoop oracle e fuel s 1 (beginDb db t1)).term
    with _ | er | _
  · simp only [hterm]
    rcases hset : set_running (collectLoop oracle e fuel s 1 (beginDb db t1)).db
      false t2 with er | db3
    · simp only [hset]
      rfl
    · simp only [hset]
      rfl
  · simp only [hterm]
    rfl
  · simp only [hterm]
    rfl

/-- Witness for the corrected C4 theorem at a concrete run. -/
theorem table_reset_precedes_begin_witness :
    (collect_and_store failOracle 0 1 0 7 9 db0).events.take 2 =
      [Event.emptyTable, Event.setRunning true] :=
  table_reset_precedes_begin failOracle 0 1 0 7 9 db0 rfl

/-! ## Claim C3: lock release after errors -/

/-- Claim C3 counterexample: a payload whose entry has an empty
`close_approach_data` list makes `get_values_list` raise `IndexError`
inside the window loop; `collect_and_store` has no `try/finally`, so the
exception escapes, `set_running(db, False)` never runs, and the store is
left with `running = 1`. -/
theorem run_lock_left_held_counterexample :
    (collect_and_store badOracle 5 0 0 2 3 db0).term =
      Term.raised PyError.indexError ∧
    Event.setRunning false ∉ (collect_and_store badOracle 5 0 0 2 3 db0).events ∧
    Event.setRunning true ∈ (collect_and_store badOracle 5 0 0 2 3 db0).events ∧
    (collect_and_store badOracle 5 0 0 2 3 db0).db.neo_load.map
      RunRow.running = some 1 := by
  decide

/-- Claim C3, corrected: the lock release `set_running(db, False)` is
executed (as the last step) only when the window loop finishes normally;
when a catchable error raised inside a window iteration (for example a
mapping failure in `get_values_list`) escapes `collect_and_store`, the
release is skipped — there is no `try/finally`, so such a run leaves
`running=true` behind. -/
theorem lock_release_only_on_normal_exit :
    ∀ (oracle : Nat → FetchOutcome) (fuel start_date end_date : Nat)
      (t1 t2 : Int) (db : NeoDb),
      ((collect_and_store oracle fuel start_date end_date t1 t2 db).term =
          Term.completed →
        (collect_and_store oracle fuel start_date end_date t1 t2 db).events.getLast? =
          some (Event.setRunning false)) ∧
      (∀ e, (collect_and_store oracle fuel start_date end_date t1 t2 db).term =
          Term.raised e →
        Event.setRunning false ∉
          (collect_and_store oracle fuel start_date end_date t1 t2 db).events) := by
  intro oracle fuel s ed t1 t2 db
  unfold collect_and_store
  rcases he : empty_table db with er | db1
  · simp only [he]
    exact ⟨fun h => absurd h (by simp), fun e h => by simp⟩
  · simp only [he]
    rcases hs : set_running db1 true t1 with er | db2
    · simp only [hs]
      exact ⟨fun h => absurd h (by simp), fun e h => by simp⟩
    · simp only [hs]
      rcases hterm : (collectLoop oracle ed fuel s 1 db2).term with _ | er | _
      · simp only [hterm]
        rcases hset : set_running (collectLoop oracle ed fuel s 1 db2).db
          false t2 with er | db3
        · simp only [hset]
          refine ⟨fun h => absurd h (by simp), fun e h hmem => ?_⟩
          simp only [List.mem_cons] at hmem
          rcases hmem with h1 | h1 | h1
          · exact absurd h1 (by simp)
          · exact absurd h1 (by simp)
          · exact collectLoop_no_setRunning oracle ed false fuel s 1 db2 h1
        · simp only [hset]
          refine ⟨fun _ => ?_, fun e h => absurd h (by simp)⟩
          rw [show Event.emptyTable :: Event.setRunning true ::
              ((collectLoop oracle ed fuel s 1 db2).events ++
                [Event.setRunning false]) =
              (Event.emptyTable :: Event.setRunning true ::
                (collectLoop oracle ed fuel s 1 db2).events) ++
                [Event.setRunning false] by simp]
          exact List.getLast?_concat _
      · simp only [hterm]
        refine ⟨fun h => absurd h (by simp), fun e h hmem => ?_⟩
        simp only [List.mem_cons] at hmem
        rcases hmem with h1 | h1 | h1
        · exact absurd h1 (by simp)
        · exact absurd h1 (by simp)
        · exact collectLoop_no_setRunning oracle ed false fuel s 1 db2 h1
      · simp only [hterm]
        exact ⟨fun h => absurd h (by simp), fun e h => absurd h (by simp)⟩

/-- Witness for the corrected C3 theorem at a concrete normally-completing
run. -/
theorem lock_release_only_on_normal_exit_witness :
    (collect_and_store failOracle 0 1 0 7 9 db0).events.getLast? =
      some (Event.setRunning false) :=
  (lock_release_only_on_normal_exit failOracle 0 1 0 7 9 db0).1 (by decide)

/-! ## Claim C1: failed windows are retried, not advanced past -/

/-- Claim C1 counterexample: the claim says a failed window's start date
is advanced by the 8-day increment before the next iteration (failed
window skipped, not retried).  With the first request failing and the
second succeeding over the single-window range `[0, 0]`, the run issues
*two* requests for window 0: the failed window was requested again, not
advanced past. -/
theorem failed_window_requested_again :
    requestsOf (collect_and_store failThenOk 5 0 0 2 3 db0).events = [0, 0] ∧
    (collect_and_store failThenOk 5 0 0 2 3 db0).term = Term.completed := by
  decide

/-- Claim C1, corrected: when a window's fetch fails, the window start
date is *not* advanced: the next iteration requests exactly the same
window start again (only the request counter increments), so a failed
window is retried, not skipped. -/
theorem failed_window_not_advanced :
    ∀ (oracle : Nat → FetchOutcome) (end_date fuel current req : Nat)
      (db : NeoDb),
      current ≤ end_date → oracle req = .fail →
      (requestsOf
        (collectLoop oracle end_date (fuel + 2) current req db).events).take 2 =
        [current, current] := by
  intro oracle ed fuel c r db hc hf
  have h2 : fuel + 2 = (fuel + 1) + 1 := rfl
  rw [h2]
  unfold collectLoop
  rw [if_pos hc]
  simp only [hf]
  obtain ⟨tail, htail⟩ := collectLoop_events_head oracle ed fuel c (r + 1) db hc
  rw [htail]
  simp [requestsOf]

/-- Witness for the corrected C1 theorem at a concrete failing window. -/
theorem failed_window_not_advanced_witness :
    (requestsOf (collectLoop failOracle 0 2 0 1 db0).events).take 2 = [0, 0] :=
  failed_window_not_advanced failOracle 0 0 0 1 db0 (by decide) rfl

/-! ## Claim C2: termination of the window loop -/

/-- Claim C2 counterexample: the claim says the loop terminates for every
sequence of per-window outcomes, including failing windows; but when the
fetch for a window keeps failing the loop never advances past it — for
every fuel the run is still going, i.e. the `while` loop runs forever. -/
theorem persistent_failure_never_terminates :
    runForever failOracle 0 0 db0 := by
  intro fuel t1 t2
  rw [collect_and_store_unfold failOracle fuel 0 0 t1 t2 db0 rfl]
  dsimp only
  simp only [collectLoop_allFail 0 fuel 0 1 (beginDb db0 t1) (le_refl 0)]

/-- Claim C2, corrected: the loop terminates — exactly when the window
start exceeds the end date, after attempting every 8-day window start in
the range — provided every window's fetch succeeds (with a cleanly
mapping payload); a persistently failing window is instead retried
forever (see the counterexample). -/
theorem all_success_terminates :
    ∀ (oracle : Nat → FetchOutcome) (start_date end_date : Nat)
      (t1 t2 : Int) (db : NeoDb),
      db.reachable = true →
      (∀ n, ∃ p vs, oracle n = .success p ∧
        get_values_list p end_date = .ok vs) →
      (collect_and_store oracle (end_date + 1) start_date end_date
        t1 t2 db).term = Term.completed ∧
      requestsOf (collect_and_store oracle (end_date + 1) start_date end_date
        t1 t2 db).events = windowStarts end_date start_date := by
  intro oracle s ed t1 t2 db hr hok
  rw [collect_and_store_unfold oracle (ed + 1) s ed t1 t2 db hr]
  dsimp only
  have hdb2 : (beginDb db t1).reachable = true := hr
  obtain ⟨hterm, hreq, hreach⟩ :=
    collectLoop_allGood oracle ed hok (ed + 1) s 1 (beginDb db t1) hdb2
      (by omega)
  simp only [hterm]
  rcases hset : set_running (collectLoop oracle ed (ed + 1) s 1
      (beginDb db t1)).db false t2 with er | db3
  · unfold set_running at hset
    rw [if_pos hreach] at hset
    exact absurd hset (by simp)
  · simp only [hset]
    refine ⟨by trivial, ?_⟩
    simp only [requestsOf] at hreq ⊢
    simp only [List.filterMap_cons, List.filterMap_append]
    simpa using hreq

/-- Witness for the corrected C2 theorem: a single-window all-success
run completes after requesting exactly the one expected window. -/
theorem all_success_terminates_witness :
    (collect_and_store emptyOracle 1 0 0 4 6 db0).term = Term.completed ∧
    requestsOf (collect_and_store emptyOracle 1 0 0 4 6 db0).events =
      windowStarts 0 0 :=
  all_success_terminates emptyOracle 0 0 4 6 db0 rfl
    (fun _ => ⟨[], [], rfl, rfl⟩)

/-! ## Claim C9: entry-point argument validation -/

/-- Claim C9 counterexample: the claim says a missing or malformed
`-end_date` aborts with a *non-zero* exit status; but the abort path
calls `sys.exit()` with no argument, which exits with status 0 — both
for a missing argument and for a malformed one. -/
theorem invalid_end_date_exit_code_is_zero :
    (main (fun _ => 0) failOracle 3 0 0 none db0).term = MainTerm.exited 0 ∧
    (main (fun _ => 0) failOracle 3 0 0 (some "20-3-15") db0).term =
      MainTerm.exited 0 := by
  decide

/-- Claim C9, corrected: for every invocation whose `-end_date` argument
is missing or fails the format check, the entry point logs an error and
exits — via `sys.exit()` with no argument, hence with exit status 0, not
non-zero — performing no store access at all (no lock read, no table
reset, no insert): the trace is exactly the one log line and the store
state is unchanged. -/
theorem invalid_end_date_logs_and_exits_zero :
    ∀ (ordDate : String → Nat) (oracle : Nat → FetchOutcome) (fuel : Nat)
      (t1 t2 : Int) (arg : Option String) (db : NeoDb),
      arg = none ∨ (∃ d, arg = some d ∧ check_date_format d = false) →
      main ordDate oracle fuel t1 t2 arg db =
        ⟨[Event.logError], db, .exited 0⟩ := by
  intro ordD oracle fuel t1 t2 arg db h
  rcases h with h | ⟨d, hd, hfmt⟩
  · subst h
    rfl
  · subst hd
    simp [main, check_args, hfmt]

/-- Witness for the corrected C9 theorem at a missing argument. -/
theorem invalid_end_date_logs_and_exits_zero_witness :
    main (fun _ => 0) failOracle 3 0 0 none db0 =
      ⟨[Event.logError], db0, .exited 0⟩ :=
  invalid_end_date_logs_and_exits_zero (fun _ => 0) failOracle 3 0 0 none db0
    (Or.inl rfl)

end Neo
